import Mathlib

/-!
Shallow embedding of the options payoff simulator
(`options_simulator.py`, function `create_payoff_plot`, and its script twin
`options_simulation.py`; the two share the same core logic verbatim).

Numeric values are modelled by exact rationals `ℚ`.  The Python dict
`strategies` (insertion ordered, string keyed, keys unique) is modelled by an
association list `List (String × List ℚ)` with Python-dict update semantics:
assigning to a key already present overwrites its value in place, keeping its
position; assigning to a fresh key appends it at the end.
-/

/-- A payoff series: one rational per grid price. -/
abbrev Series := List ℚ

/-- The insertion-ordered, string-keyed dictionary of payoff series. -/
abbrev StratDict := List (String × Series)

/-- `k in d` — Python membership test on the dict. -/
def dictMem (d : StratDict) (k : String) : Bool :=
  d.any (fun kv => kv.1 == k)

/-- `d[k]` — lookup at the first occurrence of the key (keys are unique in a
Python dict); total with default `[]` (the source only reads keys it has
written). -/
def dictGet : StratDict → String → Series
  | [], _ => []
  | kv :: rest, k => if kv.1 == k then kv.2 else dictGet rest k

/-- `d[k] = v` — Python dict assignment: overwrite in place at the first
occurrence of the key (keys are unique in a Python dict), append otherwise. -/
def dictSet : StratDict → String → Series → StratDict
  | [], k, v => [(k, v)]
  | kv :: rest, k, v =>
      if kv.1 == k then (k, v) :: rest else kv :: dictSet rest k v

/-- The keys of the dict, in iteration order. -/
def dictKeys (d : StratDict) : List String :=
  d.map Prod.fst

/-- The caller-supplied scalar parameters of `create_payoff_plot`. -/
structure Params where
  strike_price : ℚ
  premium : ℚ
  basis : ℚ
  contract_size : ℚ
  per_share : Bool
  show_profit : Bool

/-- Length of `np.arange(strike*0.75, strike*1.25 + 0.01, 1.0)`:
numpy produces `max(⌈(stop − start) / step⌉, 0)` elements. -/
def gridLen (strike : ℚ) : ℕ :=
  (Int.ceil ((strike * 1.25 + 0.01) - strike * 0.75)).toNat

/-- The stock-price grid `np.arange(strike*0.75, strike*1.25 + 0.01, 1.0)`:
element `i` is `strike*0.75 + i`. -/
def stock_prices (strike : ℚ) : List ℚ :=
  (List.range (gridLen strike)).map (fun i : ℕ => strike * 0.75 + (i : ℚ))

/-- Per-share naked short call payoff at price `p`:
`premium` if `p ≤ strike`, else `premium − (p − strike)`. -/
def shortCallPayoff (strike premium p : ℚ) : ℚ :=
  if p ≤ strike then premium else premium - (p - strike)

/-- Per-share naked short put payoff at price `p`:
`premium` if `p ≥ strike`, else `premium − (strike − p)`. -/
def shortPutPayoff (strike premium p : ℚ) : ℚ :=
  if p ≥ strike then premium else premium - (strike - p)

/-- The naked short call series over a grid (`np.where(g <= strike, ...)`). -/
def shortCallSeries (strike premium : ℚ) (g : List ℚ) : Series :=
  g.map (shortCallPayoff strike premium)

/-- The naked short put series over a grid (`np.where(g >= strike, ...)`). -/
def shortPutSeries (strike premium : ℚ) (g : List ℚ) : Series :=
  g.map (shortPutPayoff strike premium)

/-- One `if "Name" in strategies_to_plot: strategies["Name"] = series` block
of section 4 of the source. -/
def stageAdd (name : String) (cond : Bool) (v : Series) (d : StratDict) :
    StratDict :=
  if cond then dictSet d name v else d

/-- One `if "Name" not in strategies: strategies["Name"] = series` block
inside the Covered Call branch of the source. -/
def ensure (d : StratDict) (k : String) (v : Series) : StratDict :=
  if dictMem d k then d else dictSet d k v

/-- The dict after the two `not in` checks inside the Covered Call branch:
the Long Stock and Naked Short Call intermediates are ensured present. -/
def ccEnsured (g : List ℚ) (P : Params) (d : StratDict) : StratDict :=
  ensure (ensure d "Long Stock" g) "Naked Short Call"
    (shortCallSeries P.strike_price P.premium g)

/-- The Covered Call block of section 4 of the source: ensure the Long Stock
and Naked Short Call intermediates are in the dict, then store their
element-wise sum under "Covered Call". -/
def stageCC (g : List ℚ) (P : Params) (req : List String) (d : StratDict) :
    StratDict :=
  if req.contains "Covered Call" then
    dictSet (ccEnsured g P d) "Covered Call"
      (List.zipWith (fun a b => a + b) (dictGet (ccEnsured g P d) "Long Stock")
        (dictGet (ccEnsured g P d) "Naked Short Call"))
  else d

/-- Section 4 of the source: build the `strategies` dict from the requested
strategy list, block by block in the source's order. -/
def strategies (g : List ℚ) (P : Params) (req : List String) : StratDict :=
  stageAdd "Cash Secured Put" (req.contains "Cash Secured Put")
    (shortPutSeries P.strike_price P.premium g)
    (stageAdd "Naked Short Put" (req.contains "Naked Short Put")
      (shortPutSeries P.strike_price P.premium g)
      (stageCC g P req
        (stageAdd "Naked Short Call" (req.contains "Naked Short Call")
          (shortCallSeries P.strike_price P.premium g)
          (stageAdd "Long Stock" (req.contains "Long Stock") g []))))

/-- One `if "Name" in strategies: strategies["Name"] -= basis` block of
section 5 of the source. -/
def stageSub (name : String) (b : ℚ) (d : StratDict) : StratDict :=
  if dictMem d name then
    dictSet d name ((dictGet d name).map (fun x => x - b))
  else d

/-- Section 5 of the source: if `show_profit`, subtract `basis` in place from
the Long Stock series and then from the Covered Call series. -/
def applyProfit (P : Params) (d : StratDict) : StratDict :=
  if P.show_profit then stageSub "Covered Call" P.basis (stageSub "Long Stock" P.basis d)
  else d

/-- `scale = 1 if per_share else contract_size`. -/
def scaleOf (P : Params) : ℚ :=
  if P.per_share then 1 else P.contract_size

/-- Section 6 of the source: multiply every series in place by `scale`. -/
def applyScale (P : Params) (d : StratDict) : StratDict :=
  d.map (fun kv => (kv.1, kv.2.map (fun x => x * scaleOf P)))

/-- The payoff engine: sections 4–6 of `create_payoff_plot` on a given grid. -/
def compute_payoffs (g : List ℚ) (P : Params) (req : List String) : StratDict :=
  applyScale P (applyProfit P (strategies g P req))

/-- The full core of `create_payoff_plot`: the grid together with the final
payoff dict (the plotting sink is out of scope). -/
def create_payoff_plot (P : Params) (req : List String) : List ℚ × StratDict :=
  let g := stock_prices P.strike_price
  (g, compute_payoffs g P req)

/-- The fixed closed set of strategy identifiers, in the order the source
tests for them. -/
def allStrategyNames : List String :=
  ["Long Stock", "Naked Short Call", "Covered Call", "Naked Short Put",
   "Cash Secured Put"]

/-! ### Dictionary lemmas -/

theorem dictMem_nil (k : String) : dictMem [] k = false := rfl

theorem dictGet_nil (k : String) : dictGet [] k = [] := rfl

theorem dictMem_set_self (d : StratDict) (k : String) (v : Series) :
    dictMem (dictSet d k v) k = true := by
  induction d with
  | nil => simp [dictSet, dictMem]
  | cons kv rest ih =>
      by_cases h : kv.1 = k
      · simp [dictSet, dictMem, h]
      · simp only [dictSet, dictMem] at *
        simp [h, ih]

theorem dictMem_set_ne (d : StratDict) (k k2 : String) (v : Series)
    (h : k2 ≠ k) : dictMem (dictSet d k v) k2 = dictMem d k2 := by
  induction d with
  | nil => simp [dictSet, dictMem, Ne.symm h]
  | cons kv rest ih =>
      by_cases hk : kv.1 = k
      · simp only [dictSet, dictMem, hk, beq_self_eq_true, if_true]
        simp [List.any_cons, hk, Ne.symm h]
      · simp only [dictSet, dictMem] at *
        simp [hk, ih]

theorem dictGet_set_self (d : StratDict) (k : String) (v : Series) :
    dictGet (dictSet d k v) k = v := by
  induction d with
  | nil => simp [dictSet, dictGet]
  | cons kv rest ih =>
      by_cases h : kv.1 = k
      · simp [dictSet, dictGet, h]
      · simp [dictSet, dictGet, h, ih]

theorem dictGet_set_ne (d : StratDict) (k k2 : String) (v : Series)
    (h : k2 ≠ k) : dictGet (dictSet d k v) k2 = dictGet d k2 := by
  induction d with
  | nil => simp [dictSet, dictGet, Ne.symm h]
  | cons kv rest ih =>
      by_cases hk : kv.1 = k
      · simp only [dictSet, dictGet, hk, beq_self_eq_true, if_true]
        simp [hk, Ne.symm h]
      · simp [dictSet, dictGet, hk, ih]

theorem dictKeys_set_of_mem (d : StratDict) (k : String) (v : Series)
    (h : dictMem d k = true) : dictKeys (dictSet d k v) = dictKeys d := by
  induction d with
  | nil => simp [dictMem] at h
  | cons kv rest ih =>
      by_cases hk : kv.1 = k
      · simp [dictSet, dictKeys, hk]
      · simp only [dictMem, List.any_cons, Bool.or_eq_true, beq_iff_eq] at h
        rcases h with h | h
        · exact absurd h hk
        · simp only [dictSet, dictKeys] at *
          simp [hk, ih h]

theorem dictKeys_set_of_not_mem (d : StratDict) (k : String) (v : Series)
    (h : dictMem d k = false) : dictKeys (dictSet d k v) = dictKeys d ++ [k] := by
  induction d with
  | nil => simp [dictSet, dictKeys]
  | cons kv rest ih =>
      simp only [dictMem, List.any_cons, Bool.or_eq_false_iff, beq_eq_false_iff_ne,
        ne_eq] at h
      simp only [dictSet, dictKeys] at *
      simp [h.1, ih h.2]

theorem dictGet_of_not_mem (d : StratDict) (k : String)
    (h : dictMem d k = false) : dictGet d k = [] := by
  induction d with
  | nil => rfl
  | cons kv rest ih =>
      simp only [dictMem, List.any_cons, Bool.or_eq_false_iff, beq_eq_false_iff_ne,
        ne_eq] at h
      simp only [dictGet] at *
      simp [h.1, ih h.2]

/-! ### Stage lemmas -/

theorem dictGet_stageAdd_self (name : String) (cond : Bool) (v : Series)
    (d : StratDict) (h : cond = true) :
    dictGet (stageAdd name cond v d) name = v := by
  simp [stageAdd, h, dictGet_set_self]

theorem dictGet_stageAdd_ne (name : String) (cond : Bool) (v : Series)
    (d : StratDict) (k2 : String) (h : k2 ≠ name) :
    dictGet (stageAdd name cond v d) k2 = dictGet d k2 := by
  cases cond with
  | false => simp [stageAdd]
  | true => simp [stageAdd, dictGet_set_ne d name k2 v h]

theorem dictMem_stageAdd_self (name : String) (cond : Bool) (v : Series)
    (d : StratDict) :
    dictMem (stageAdd name cond v d) name = (cond || dictMem d name) := by
  cases cond with
  | false => simp [stageAdd]
  | true => simp [stageAdd, dictMem_set_self]

theorem dictMem_stageAdd_ne (name : String) (cond : Bool) (v : Series)
    (d : StratDict) (k2 : String) (h : k2 ≠ name) :
    dictMem (stageAdd name cond v d) k2 = dictMem d k2 := by
  cases cond with
  | false => simp [stageAdd]
  | true => simp [stageAdd, dictMem_set_ne d name k2 v h]

theorem dictKeys_stageAdd (name : String) (cond : Bool) (v : Series)
    (d : StratDict) (h : dictMem d name = false) :
    dictKeys (stageAdd name cond v d) =
      dictKeys d ++ (if cond then [name] else []) := by
  cases cond with
  | false => simp [stageAdd]
  | true => simp [stageAdd, dictKeys_set_of_not_mem d name v h]

theorem dictGet_ensure_self (d : StratDict) (k : String) (v : Series)
    (h : dictMem d k = true → dictGet d k = v) :
    dictGet (ensure d k v) k = v := by
  cases hm : dictMem d k with
  | false => simp [ensure, hm, dictGet_set_self]
  | true => simp [ensure, hm, h hm]

theorem dictGet_ensure_ne (d : StratDict) (k k2 : String) (v : Series)
    (h : k2 ≠ k) : dictGet (ensure d k v) k2 = dictGet d k2 := by
  cases hm : dictMem d k with
  | false => simp [ensure, hm, dictGet_set_ne d k k2 v h]
  | true => simp [ensure, hm]

theorem dictMem_ensure_self (d : StratDict) (k : String) (v : Series) :
    dictMem (ensure d k v) k = true := by
  cases hm : dictMem d k with
  | false => simp [ensure, hm, dictMem_set_self]
  | true => simp [ensure, hm]

theorem dictMem_ensure_ne (d : StratDict) (k k2 : String) (v : Series)
    (h : k2 ≠ k) : dictMem (ensure d k v) k2 = dictMem d k2 := by
  cases hm : dictMem d k with
  | false => simp [ensure, hm, dictMem_set_ne d k k2 v h]
  | true => simp [ensure, hm]

theorem dictKeys_ensure (d : StratDict) (k : String) (v : Series) :
    dictKeys (ensure d k v) =
      dictKeys d ++ (if dictMem d k then [] else [k]) := by
  cases hm : dictMem d k with
  | false => simp [ensure, hm, dictKeys_set_of_not_mem d k v hm]
  | true => simp [ensure, hm]

theorem stageCC_pos (g : List ℚ) (P : Params) (req : List String)
    (d : StratDict) (hcc : req.contains "Covered Call" = true) :
    stageCC g P req d =
      dictSet (ccEnsured g P d) "Covered Call"
        (List.zipWith (fun a b => a + b) (dictGet (ccEnsured g P d) "Long Stock")
          (dictGet (ccEnsured g P d) "Naked Short Call")) := by
  unfold stageCC
  rw [if_pos hcc]

theorem stageCC_neg (g : List ℚ) (P : Params) (req : List String)
    (d : StratDict) (hcc : req.contains "Covered Call" = false) :
    stageCC g P req d = d := by
  unfold stageCC
  rw [if_neg]
  intro hc
  rw [hcc] at hc
  exact Bool.false_ne_true hc

theorem ccEnsured_get_LS (g : List ℚ) (P : Params) (d : StratDict)
    (hLS : dictMem d "Long Stock" = true → dictGet d "Long Stock" = g) :
    dictGet (ccEnsured g P d) "Long Stock" = g := by
  unfold ccEnsured
  rw [dictGet_ensure_ne _ _ _ _ (by decide)]
  exact dictGet_ensure_self d "Long Stock" g hLS

theorem ccEnsured_get_NSC (g : List ℚ) (P : Params) (d : StratDict)
    (hNSC : dictMem d "Naked Short Call" = true →
      dictGet d "Naked Short Call" = shortCallSeries P.strike_price P.premium g) :
    dictGet (ccEnsured g P d) "Naked Short Call" =
      shortCallSeries P.strike_price P.premium g := by
  unfold ccEnsured
  apply dictGet_ensure_self
  intro hm
  rw [dictMem_ensure_ne _ _ _ _ (by decide)] at hm
  rw [dictGet_ensure_ne _ _ _ _ (by decide)]
  exact hNSC hm

theorem ccEnsured_get_ne (g : List ℚ) (P : Params) (d : StratDict)
    (k2 : String) (h2 : k2 ≠ "Long Stock") (h3 : k2 ≠ "Naked Short Call") :
    dictGet (ccEnsured g P d) k2 = dictGet d k2 := by
  unfold ccEnsured
  rw [dictGet_ensure_ne _ _ _ _ h3, dictGet_ensure_ne _ _ _ _ h2]

theorem ccEnsured_mem_ne (g : List ℚ) (P : Params) (d : StratDict)
    (k2 : String) (h2 : k2 ≠ "Long Stock") (h3 : k2 ≠ "Naked Short Call") :
    dictMem (ccEnsured g P d) k2 = dictMem d k2 := by
  unfold ccEnsured
  rw [dictMem_ensure_ne _ _ _ _ h3, dictMem_ensure_ne _ _ _ _ h2]

theorem ccEnsured_mem_LS (g : List ℚ) (P : Params) (d : StratDict) :
    dictMem (ccEnsured g P d) "Long Stock" = true := by
  unfold ccEnsured
  rw [dictMem_ensure_ne _ _ _ _ (by decide)]
  exact dictMem_ensure_self _ _ _

theorem ccEnsured_mem_NSC (g : List ℚ) (P : Params) (d : StratDict) :
    dictMem (ccEnsured g P d) "Naked Short Call" = true := by
  unfold ccEnsured
  exact dictMem_ensure_self _ _ _

theorem ccEnsured_keys (g : List ℚ) (P : Params) (d : StratDict) :
    dictKeys (ccEnsured g P d) =
      dictKeys d ++ (if dictMem d "Long Stock" then [] else ["Long Stock"]) ++
        (if dictMem d "Naked Short Call" then [] else ["Naked Short Call"]) := by
  unfold ccEnsured
  rw [dictKeys_ensure, dictKeys_ensure, dictMem_ensure_ne _ _ _ _ (by decide)]

theorem dictGet_stageCC_CC (g : List ℚ) (P : Params) (req : List String)
    (d : StratDict) (hcc : req.contains "Covered Call" = true)
    (hLS : dictMem d "Long Stock" = true → dictGet d "Long Stock" = g)
    (hNSC : dictMem d "Naked Short Call" = true →
      dictGet d "Naked Short Call" = shortCallSeries P.strike_price P.premium g) :
    dictGet (stageCC g P req d) "Covered Call" =
      List.zipWith (fun a b => a + b) g (shortCallSeries P.strike_price P.premium g) := by
  rw [stageCC_pos g P req d hcc, dictGet_set_self, ccEnsured_get_LS g P d hLS,
    ccEnsured_get_NSC g P d hNSC]

theorem dictGet_stageCC_LS (g : List ℚ) (P : Params) (req : List String)
    (d : StratDict) (hcc : req.contains "Covered Call" = true)
    (hLS : dictMem d "Long Stock" = true → dictGet d "Long Stock" = g) :
    dictGet (stageCC g P req d) "Long Stock" = g := by
  rw [stageCC_pos g P req d hcc, dictGet_set_ne _ _ _ _ (by decide),
    ccEnsured_get_LS g P d hLS]

theorem dictGet_stageCC_NSC (g : List ℚ) (P : Params) (req : List String)
    (d : StratDict) (hcc : req.contains "Covered Call" = true)
    (hNSC : dictMem d "Naked Short Call" = true →
      dictGet d "Naked Short Call" = shortCallSeries P.strike_price P.premium g) :
    dictGet (stageCC g P req d) "Naked Short Call" =
      shortCallSeries P.strike_price P.premium g := by
  rw [stageCC_pos g P req d hcc, dictGet_set_ne _ _ _ _ (by decide),
    ccEnsured_get_NSC g P d hNSC]

theorem dictGet_stageCC_other (g : List ℚ) (P : Params) (req : List String)
    (d : StratDict) (k2 : String) (h1 : k2 ≠ "Covered Call")
    (h2 : k2 ≠ "Long Stock") (h3 : k2 ≠ "Naked Short Call") :
    dictGet (stageCC g P req d) k2 = dictGet d k2 := by
  cases hcc : req.contains "Covered Call" with
  | false => rw [stageCC_neg g P req d hcc]
  | true =>
      rw [stageCC_pos g P req d hcc, dictGet_set_ne _ _ _ _ h1,
        ccEnsured_get_ne g P d k2 h2 h3]

theorem dictMem_stageCC_CC (g : List ℚ) (P : Params) (req : List String)
    (d : StratDict) :
    dictMem (stageCC g P req d) "Covered Call" =
      (req.contains "Covered Call" || dictMem d "Covered Call") := by
  cases hcc : req.contains "Covered Call" with
  | false => rw [stageCC_neg g P req d hcc, Bool.false_or]
  | true => rw [stageCC_pos g P req d hcc, dictMem_set_self, Bool.true_or]

theorem dictMem_stageCC_LS (g : List ℚ) (P : Params) (req : List String)
    (d : StratDict) :
    dictMem (stageCC g P req d) "Long Stock" =
      (dictMem d "Long Stock" || req.contains "Covered Call") := by
  cases hcc : req.contains "Covered Call" with
  | false => rw [stageCC_neg g P req d hcc, Bool.or_false]
  | true =>
      rw [stageCC_pos g P req d hcc, dictMem_set_ne _ _ _ _ (by decide),
        ccEnsured_mem_LS, Bool.or_true]

theorem dictMem_stageCC_NSC (g : List ℚ) (P : Params) (req : List String)
    (d : StratDict) :
    dictMem (stageCC g P req d) "Naked Short Call" =
      (dictMem d "Naked Short Call" || req.contains "Covered Call") := by
  cases hcc : req.contains "Covered Call" with
  | false => rw [stageCC_neg g P req d hcc, Bool.or_false]
  | true =>
      rw [stageCC_pos g P req d hcc, dictMem_set_ne _ _ _ _ (by decide),
        ccEnsured_mem_NSC, Bool.or_true]

theorem dictMem_stageCC_other (g : List ℚ) (P : Params) (req : List String)
    (d : StratDict) (k2 : String) (h1 : k2 ≠ "Covered Call")
    (h2 : k2 ≠ "Long Stock") (h3 : k2 ≠ "Naked Short Call") :
    dictMem (stageCC g P req d) k2 = dictMem d k2 := by
  cases hcc : req.contains "Covered Call" with
  | false => rw [stageCC_neg g P req d hcc]
  | true =>
      rw [stageCC_pos g P req d hcc, dictMem_set_ne _ _ _ _ h1,
        ccEnsured_mem_ne g P d k2 h2 h3]

theorem dictKeys_stageCC (g : List ℚ) (P : Params) (req : List String)
    (d : StratDict) (h : dictMem d "Covered Call" = false) :
    dictKeys (stageCC g P req d) =
      dictKeys d ++
        (if req.contains "Covered Call" then
          (if dictMem d "Long Stock" then [] else ["Long Stock"]) ++
          (if dictMem d "Naked Short Call" then [] else ["Naked Short Call"]) ++
          ["Covered Call"]
        else []) := by
  cases hcc : req.contains "Covered Call" with
  | false => rw [stageCC_neg g P req d hcc]; simp
  | true =>
      have hmem : dictMem (ccEnsured g P d) "Covered Call" = false := by
        rw [ccEnsured_mem_ne g P d _ (by decide) (by decide)]
        exact h
      rw [stageCC_pos g P req d hcc, dictKeys_set_of_not_mem _ _ _ hmem,
        ccEnsured_keys]
      simp [List.append_assoc]

/-! ### Characterisation of the `strategies` dict -/

theorem pre_mem_LS (g : List ℚ) (P : Params) (req : List String) :
    dictMem (stageAdd "Naked Short Call" (req.contains "Naked Short Call")
      (shortCallSeries P.strike_price P.premium g)
      (stageAdd "Long Stock" (req.contains "Long Stock") g []))
      "Long Stock" = req.contains "Long Stock" := by
  rw [dictMem_stageAdd_ne _ _ _ _ _ (by decide), dictMem_stageAdd_self,
    dictMem_nil, Bool.or_false]

theorem pre_get_LS (g : List ℚ) (P : Params) (req : List String)
    (h : req.contains "Long Stock" = true) :
    dictGet (stageAdd "Naked Short Call" (req.contains "Naked Short Call")
      (shortCallSeries P.strike_price P.premium g)
      (stageAdd "Long Stock" (req.contains "Long Stock") g []))
      "Long Stock" = g := by
  rw [dictGet_stageAdd_ne _ _ _ _ _ (by decide), dictGet_stageAdd_self _ _ _ _ h]

theorem pre_memget_LS (g : List ℚ) (P : Params) (req : List String) :
    dictMem (stageAdd "Naked Short Call" (req.contains "Naked Short Call")
      (shortCallSeries P.strike_price P.premium g)
      (stageAdd "Long Stock" (req.contains "Long Stock") g []))
      "Long Stock" = true →
    dictGet (stageAdd "Naked Short Call" (req.contains "Naked Short Call")
      (shortCallSeries P.strike_price P.premium g)
      (stageAdd "Long Stock" (req.contains "Long Stock") g []))
      "Long Stock" = g := by
  intro hm
  rw [pre_mem_LS] at hm
  exact pre_get_LS g P req hm

theorem pre_mem_NSC (g : List ℚ) (P : Params) (req : List String) :
    dictMem (stageAdd "Naked Short Call" (req.contains "Naked Short Call")
      (shortCallSeries P.strike_price P.premium g)
      (stageAdd "Long Stock" (req.contains "Long Stock") g []))
      "Naked Short Call" = req.contains "Naked Short Call" := by
  rw [dictMem_stageAdd_self, dictMem_stageAdd_ne _ _ _ _ _ (by decide),
    dictMem_nil, Bool.or_false]

theorem pre_memget_NSC (g : List ℚ) (P : Params) (req : List String) :
    dictMem (stageAdd "Naked Short Call" (req.contains "Naked Short Call")
      (shortCallSeries P.strike_price P.premium g)
      (stageAdd "Long Stock" (req.contains "Long Stock") g []))
      "Naked Short Call" = true →
    dictGet (stageAdd "Naked Short Call" (req.contains "Naked Short Call")
      (shortCallSeries P.strike_price P.premium g)
      (stageAdd "Long Stock" (req.contains "Long Stock") g []))
      "Naked Short Call" = shortCallSeries P.strike_price P.premium g := by
  intro hm
  rw [pre_mem_NSC] at hm
  exact dictGet_stageAdd_self _ _ _ _ hm

theorem pre_mem_other (g : List ℚ) (P : Params) (req : List String)
    (k : String) (h1 : k ≠ "Long Stock") (h2 : k ≠ "Naked Short Call") :
    dictMem (stageAdd "Naked Short Call" (req.contains "Naked Short Call")
      (shortCallSeries P.strike_price P.premium g)
      (stageAdd "Long Stock" (req.contains "Long Stock") g []))
      k = false := by
  rw [dictMem_stageAdd_ne _ _ _ _ _ h2, dictMem_stageAdd_ne _ _ _ _ _ h1,
    dictMem_nil]

theorem pre_keys (g : List ℚ) (P : Params) (req : List String) :
    dictKeys (stageAdd "Naked Short Call" (req.contains "Naked Short Call")
      (shortCallSeries P.strike_price P.premium g)
      (stageAdd "Long Stock" (req.contains "Long Stock") g [])) =
      (if req.contains "Long Stock" then ["Long Stock"] else []) ++
      (if req.contains "Naked Short Call" then ["Naked Short Call"] else []) := by
  rw [dictKeys_stageAdd _ _ _ _ (by
      rw [dictMem_stageAdd_ne _ _ _ _ _ (by decide), dictMem_nil]),
    dictKeys_stageAdd _ _ _ _ (by rw [dictMem_nil])]
  simp [dictKeys]

theorem strategies_get_LS (g : List ℚ) (P : Params) (req : List String)
    (h : (req.contains "Long Stock" || req.contains "Covered Call") = true) :
    dictGet (strategies g P req) "Long Stock" = g := by
  unfold strategies
  rw [dictGet_stageAdd_ne _ _ _ _ _ (by decide),
    dictGet_stageAdd_ne _ _ _ _ _ (by decide)]
  cases hcc : req.contains "Covered Call" with
  | true => exact dictGet_stageCC_LS _ _ _ _ hcc (pre_memget_LS g P req)
  | false =>
      rw [stageCC_neg _ _ _ _ hcc]
      rw [hcc, Bool.or_false] at h
      exact pre_get_LS g P req h

theorem strategies_get_NSC (g : List ℚ) (P : Params) (req : List String)
    (h : (req.contains "Naked Short Call" || req.contains "Covered Call") = true) :
    dictGet (strategies g P req) "Naked Short Call" =
      shortCallSeries P.strike_price P.premium g := by
  unfold strategies
  rw [dictGet_stageAdd_ne _ _ _ _ _ (by decide),
    dictGet_stageAdd_ne _ _ _ _ _ (by decide)]
  cases hcc : req.contains "Covered Call" with
  | true => exact dictGet_stageCC_NSC _ _ _ _ hcc (pre_memget_NSC g P req)
  | false =>
      rw [stageCC_neg _ _ _ _ hcc]
      rw [hcc, Bool.or_false] at h
      exact dictGet_stageAdd_self _ _ _ _ h

theorem strategies_get_CC (g : List ℚ) (P : Params) (req : List String)
    (hcc : req.contains "Covered Call" = true) :
    dictGet (strategies g P req) "Covered Call" =
      List.zipWith (fun a b => a + b) g (shortCallSeries P.strike_price P.premium g) := by
  unfold strategies
  rw [dictGet_stageAdd_ne _ _ _ _ _ (by decide),
    dictGet_stageAdd_ne _ _ _ _ _ (by decide)]
  exact dictGet_stageCC_CC _ _ _ _ hcc (pre_memget_LS g P req) (pre_memget_NSC g P req)

theorem strategies_get_NSP (g : List ℚ) (P : Params) (req : List String)
    (h : req.contains "Naked Short Put" = true) :
    dictGet (strategies g P req) "Naked Short Put" =
      shortPutSeries P.strike_price P.premium g := by
  unfold strategies
  rw [dictGet_stageAdd_ne _ _ _ _ _ (by decide), dictGet_stageAdd_self _ _ _ _ h]

theorem strategies_get_CSP (g : List ℚ) (P : Params) (req : List String)
    (h : req.contains "Cash Secured Put" = true) :
    dictGet (strategies g P req) "Cash Secured Put" =
      shortPutSeries P.strike_price P.premium g := by
  unfold strategies
  rw [dictGet_stageAdd_self _ _ _ _ h]

theorem strategies_mem_LS (g : List ℚ) (P : Params) (req : List String) :
    dictMem (strategies g P req) "Long Stock" =
      (req.contains "Long Stock" || req.contains "Covered Call") := by
  unfold strategies
  rw [dictMem_stageAdd_ne _ _ _ _ _ (by decide),
    dictMem_stageAdd_ne _ _ _ _ _ (by decide), dictMem_stageCC_LS, pre_mem_LS]

theorem strategies_mem_NSC (g : List ℚ) (P : Params) (req : List String) :
    dictMem (strategies g P req) "Naked Short Call" =
      (req.contains "Naked Short Call" || req.contains "Covered Call") := by
  unfold strategies
  rw [dictMem_stageAdd_ne _ _ _ _ _ (by decide),
    dictMem_stageAdd_ne _ _ _ _ _ (by decide), dictMem_stageCC_NSC, pre_mem_NSC]

theorem strategies_mem_CC (g : List ℚ) (P : Params) (req : List String) :
    dictMem (strategies g P req) "Covered Call" = req.contains "Covered Call" := by
  unfold strategies
  rw [dictMem_stageAdd_ne _ _ _ _ _ (by decide),
    dictMem_stageAdd_ne _ _ _ _ _ (by decide), dictMem_stageCC_CC,
    pre_mem_other g P req _ (by decide) (by decide), Bool.or_false]

theorem strategies_mem_NSP (g : List ℚ) (P : Params) (req : List String) :
    dictMem (strategies g P req) "Naked Short Put" = req.contains "Naked Short Put" := by
  unfold strategies
  rw [dictMem_stageAdd_ne _ _ _ _ _ (by decide), dictMem_stageAdd_self,
    dictMem_stageCC_other _ _ _ _ _ (by decide) (by decide) (by decide),
    pre_mem_other g P req _ (by decide) (by decide), Bool.or_false]

theorem strategies_mem_CSP (g : List ℚ) (P : Params) (req : List String) :
    dictMem (strategies g P req) "Cash Secured Put" = req.contains "Cash Secured Put" := by
  unfold strategies
  rw [dictMem_stageAdd_self, dictMem_stageAdd_ne _ _ _ _ _ (by decide),
    dictMem_stageCC_other _ _ _ _ _ (by decide) (by decide) (by decide),
    pre_mem_other g P req _ (by decide) (by decide), Bool.or_false]

theorem strategies_mem_other (g : List ℚ) (P : Params) (req : List String)
    (k : String) (h1 : k ≠ "Long Stock") (h2 : k ≠ "Naked Short Call")
    (h3 : k ≠ "Covered Call") (h4 : k ≠ "Naked Short Put")
    (h5 : k ≠ "Cash Secured Put") :
    dictMem (strategies g P req) k = false := by
  unfold strategies
  rw [dictMem_stageAdd_ne _ _ _ _ _ h5, dictMem_stageAdd_ne _ _ _ _ _ h4,
    dictMem_stageCC_other _ _ _ _ _ h3 h1 h2, pre_mem_other g P req _ h1 h2]

theorem strategies_keys (g : List ℚ) (P : Params) (req : List String) :
    dictKeys (strategies g P req) =
      ((if req.contains "Long Stock" then ["Long Stock"] else []) ++
        (if req.contains "Naked Short Call" then ["Naked Short Call"] else [])) ++
      (if req.contains "Covered Call" then
        (if req.contains "Long Stock" then [] else ["Long Stock"]) ++
        (if req.contains "Naked Short Call" then [] else ["Naked Short Call"]) ++
        ["Covered Call"]
      else []) ++
      (if req.contains "Naked Short Put" then ["Naked Short Put"] else []) ++
      (if req.contains "Cash Secured Put" then ["Cash Secured Put"] else []) := by
  unfold strategies
  rw [dictKeys_stageAdd _ _ _ _ (by
      rw [dictMem_stageAdd_ne _ _ _ _ _ (by decide),
        dictMem_stageCC_other _ _ _ _ _ (by decide) (by decide) (by decide),
        pre_mem_other g P req _ (by decide) (by decide)]),
    dictKeys_stageAdd _ _ _ _ (by
      rw [dictMem_stageCC_other _ _ _ _ _ (by decide) (by decide) (by decide),
        pre_mem_other g P req _ (by decide) (by decide)]),
    dictKeys_stageCC _ _ _ _ (pre_mem_other g P req _ (by decide) (by decide)),
    pre_keys, pre_mem_LS, pre_mem_NSC]

/-! ### Transform lemmas -/

theorem stageSub_pos (name : String) (b : ℚ) (d : StratDict)
    (hm : dictMem d name = true) :
    stageSub name b d = dictSet d name ((dictGet d name).map (fun x => x - b)) := by
  unfold stageSub
  rw [if_pos hm]

theorem stageSub_neg (name : String) (b : ℚ) (d : StratDict)
    (hm : dictMem d name = false) : stageSub name b d = d := by
  unfold stageSub
  rw [if_neg]
  intro hc
  rw [hm] at hc
  exact Bool.false_ne_true hc

theorem stageSub_get_self (name : String) (b : ℚ) (d : StratDict)
    (hm : dictMem d name = true) :
    dictGet (stageSub name b d) name = (dictGet d name).map (fun x => x - b) := by
  rw [stageSub_pos name b d hm, dictGet_set_self]

theorem stageSub_get_ne (name : String) (b : ℚ) (d : StratDict) (k2 : String)
    (h : k2 ≠ name) : dictGet (stageSub name b d) k2 = dictGet d k2 := by
  cases hm : dictMem d name with
  | false => rw [stageSub_neg name b d hm]
  | true => rw [stageSub_pos name b d hm, dictGet_set_ne _ _ _ _ h]

theorem stageSub_mem (name : String) (b : ℚ) (d : StratDict) (k2 : String) :
    dictMem (stageSub name b d) k2 = dictMem d k2 := by
  cases hm : dictMem d name with
  | false => rw [stageSub_neg name b d hm]
  | true =>
      by_cases hk : k2 = name
      · subst hk
        rw [stageSub_pos _ b d hm, dictMem_set_self, hm]
      · rw [stageSub_pos _ b d hm, dictMem_set_ne _ _ _ _ hk]

theorem stageSub_keys (name : String) (b : ℚ) (d : StratDict) :
    dictKeys (stageSub name b d) = dictKeys d := by
  cases hm : dictMem d name with
  | false => rw [stageSub_neg name b d hm]
  | true => rw [stageSub_pos name b d hm, dictKeys_set_of_mem _ _ _ hm]

theorem applyProfit_pos (P : Params) (d : StratDict)
    (hp : P.show_profit = true) :
    applyProfit P d = stageSub "Covered Call" P.basis (stageSub "Long Stock" P.basis d) := by
  unfold applyProfit
  rw [if_pos hp]

theorem applyProfit_neg (P : Params) (d : StratDict)
    (hp : P.show_profit = false) : applyProfit P d = d := by
  unfold applyProfit
  rw [if_neg]
  intro hc
  rw [hp] at hc
  exact Bool.false_ne_true hc

theorem applyProfit_get_LS (P : Params) (d : StratDict)
    (hp : P.show_profit = true) (hm : dictMem d "Long Stock" = true) :
    dictGet (applyProfit P d) "Long Stock" =
      (dictGet d "Long Stock").map (fun x => x - P.basis) := by
  rw [applyProfit_pos P d hp, stageSub_get_ne _ _ _ _ (by decide),
    stageSub_get_self _ _ _ hm]

theorem applyProfit_get_CC (P : Params) (d : StratDict)
    (hp : P.show_profit = true) (hm : dictMem d "Covered Call" = true) :
    dictGet (applyProfit P d) "Covered Call" =
      (dictGet d "Covered Call").map (fun x => x - P.basis) := by
  have hm2 : dictMem (stageSub "Long Stock" P.basis d) "Covered Call" = true := by
    rw [stageSub_mem]
    exact hm
  rw [applyProfit_pos P d hp, stageSub_get_self _ _ _ hm2,
    stageSub_get_ne _ _ _ _ (by decide)]

theorem applyProfit_get_other (P : Params) (d : StratDict) (k2 : String)
    (h1 : k2 ≠ "Long Stock") (h2 : k2 ≠ "Covered Call") :
    dictGet (applyProfit P d) k2 = dictGet d k2 := by
  cases hp : P.show_profit with
  | false => rw [applyProfit_neg P d hp]
  | true =>
      rw [applyProfit_pos P d hp, stageSub_get_ne _ _ _ _ h2,
        stageSub_get_ne _ _ _ _ h1]

theorem applyProfit_mem (P : Params) (d : StratDict) (k2 : String) :
    dictMem (applyProfit P d) k2 = dictMem d k2 := by
  cases hp : P.show_profit with
  | false => rw [applyProfit_neg P d hp]
  | true => rw [applyProfit_pos P d hp, stageSub_mem, stageSub_mem]

theorem applyProfit_keys (P : Params) (d : StratDict) :
    dictKeys (applyProfit P d) = dictKeys d := by
  cases hp : P.show_profit with
  | false => rw [applyProfit_neg P d hp]
  | true => rw [applyProfit_pos P d hp, stageSub_keys, stageSub_keys]

theorem dictGet_applyScale (P : Params) (d : StratDict) (k : String) :
    dictGet (applyScale P d) k = (dictGet d k).map (fun x => x * scaleOf P) := by
  induction d with
  | nil => rfl
  | cons kv rest ih =>
      by_cases h : kv.1 = k
      · simp [applyScale, dictGet, h]
      · simp only [applyScale, dictGet] at *
        simp [h, ih]

theorem dictMem_applyScale (P : Params) (d : StratDict) (k : String) :
    dictMem (applyScale P d) k = dictMem d k := by
  induction d with
  | nil => rfl
  | cons kv rest ih =>
      simp only [applyScale, dictMem] at *
      simp [ih]

theorem dictKeys_applyScale (P : Params) (d : StratDict) :
    dictKeys (applyScale P d) = dictKeys d := by
  induction d with
  | nil => rfl
  | cons kv rest ih =>
      simp only [applyScale, dictKeys] at *
      simp [ih]

/-! ### Characterisation of the full pipeline -/

theorem cp_mem (g : List ℚ) (P : Params) (req : List String) (k : String) :
    dictMem (compute_payoffs g P req) k = dictMem (strategies g P req) k := by
  unfold compute_payoffs
  rw [dictMem_applyScale, applyProfit_mem]

theorem cp_keys (g : List ℚ) (P : Params) (req : List String) :
    dictKeys (compute_payoffs g P req) = dictKeys (strategies g P req) := by
  unfold compute_payoffs
  rw [dictKeys_applyScale, applyProfit_keys]

theorem cp_get_LS (g : List ℚ) (P : Params) (req : List String)
    (h : (req.contains "Long Stock" || req.contains "Covered Call") = true) :
    dictGet (compute_payoffs g P req) "Long Stock" =
      g.map (fun p => (if P.show_profit then p - P.basis else p) * scaleOf P) := by
  unfold compute_payoffs
  rw [dictGet_applyScale]
  cases hp : P.show_profit with
  | false =>
      rw [applyProfit_neg _ _ hp, strategies_get_LS g P req h]
      simp only [hp, Bool.false_eq_true, if_false]
  | true =>
      have hm : dictMem (strategies g P req) "Long Stock" = true := by
        rw [strategies_mem_LS]
        exact h
      rw [applyProfit_get_LS _ _ hp hm, strategies_get_LS g P req h, List.map_map]
      simp only [hp, if_true]
      rfl

theorem cp_get_NSC (g : List ℚ) (P : Params) (req : List String)
    (h : (req.contains "Naked Short Call" || req.contains "Covered Call") = true) :
    dictGet (compute_payoffs g P req) "Naked Short Call" =
      (shortCallSeries P.strike_price P.premium g).map (fun x => x * scaleOf P) := by
  unfold compute_payoffs
  rw [dictGet_applyScale, applyProfit_get_other _ _ _ (by decide) (by decide),
    strategies_get_NSC g P req h]

theorem cp_get_CC (g : List ℚ) (P : Params) (req : List String)
    (hcc : req.contains "Covered Call" = true) :
    dictGet (compute_payoffs g P req) "Covered Call" =
      (List.zipWith (fun a b => a + b) g (shortCallSeries P.strike_price P.premium g)).map
        (fun x => (if P.show_profit then x - P.basis else x) * scaleOf P) := by
  unfold compute_payoffs
  rw [dictGet_applyScale]
  cases hp : P.show_profit with
  | false =>
      rw [applyProfit_neg _ _ hp, strategies_get_CC g P req hcc]
      simp only [hp, Bool.false_eq_true, if_false]
  | true =>
      have hm : dictMem (strategies g P req) "Covered Call" = true := by
        rw [strategies_mem_CC]
        exact hcc
      rw [applyProfit_get_CC _ _ hp hm, strategies_get_CC g P req hcc, List.map_map]
      simp only [hp, if_true]
      rfl

theorem cp_get_NSP (g : List ℚ) (P : Params) (req : List String)
    (h : req.contains "Naked Short Put" = true) :
    dictGet (compute_payoffs g P req) "Naked Short Put" =
      (shortPutSeries P.strike_price P.premium g).map (fun x => x * scaleOf P) := by
  unfold compute_payoffs
  rw [dictGet_applyScale, applyProfit_get_other _ _ _ (by decide) (by decide),
    strategies_get_NSP g P req h]

theorem cp_get_CSP (g : List ℚ) (P : Params) (req : List String)
    (h : req.contains "Cash Secured Put" = true) :
    dictGet (compute_payoffs g P req) "Cash Secured Put" =
      (shortPutSeries P.strike_price P.premium g).map (fun x => x * scaleOf P) := by
  unfold compute_payoffs
  rw [dictGet_applyScale, applyProfit_get_other _ _ _ (by decide) (by decide),
    strategies_get_CSP g P req h]

/-! ### Grid lemmas -/

theorem stock_prices_length (s : ℚ) : (stock_prices s).length = gridLen s := by
  unfold stock_prices
  rw [List.length_map, List.length_range]

theorem stock_prices_getElem (s : ℚ) (i : ℕ) (hi : i < (stock_prices s).length) :
    (stock_prices s)[i] = s * 0.75 + (i : ℚ) := by
  unfold stock_prices at *
  rw [List.getElem_map, List.getElem_range]

theorem stock_prices_getElemQ (s : ℚ) (i : ℕ) (hi : i < gridLen s) :
    (stock_prices s)[i]? = some (s * 0.75 + (i : ℚ)) := by
  unfold stock_prices
  rw [List.getElem?_map, List.getElem?_range hi]
  rfl

theorem gridLen_pos (s : ℚ) (hs : 0 < s) : 0 < gridLen s := by
  unfold gridLen
  have h1 : (0:ℚ) < (s * 1.25 + 0.01) - s * 0.75 := by nlinarith
  have h2 : (0:ℤ) < Int.ceil ((s * 1.25 + 0.01) - s * 0.75) := Int.ceil_pos.mpr h1
  omega

theorem stock_prices_getLast_bounds (s : ℚ) (hs : 0 < s) (x : ℚ)
    (hx : (stock_prices s).getLast? = some x) :
    s * 1.25 + 0.01 - 1 ≤ x ∧ x < s * 1.25 + 0.01 := by
  have hpos : 0 < gridLen s := gridLen_pos s hs
  rw [List.getLast?_eq_getElem?, stock_prices_length,
    stock_prices_getElemQ s (gridLen s - 1) (by omega)] at hx
  have hx2 : x = s * 0.75 + ((gridLen s - 1 : ℕ) : ℚ) := (Option.some_inj.mp hx).symm
  subst hx2
  have hc1 : (1:ℤ) ≤ Int.ceil ((s * 1.25 + 0.01) - s * 0.75) := by
    unfold gridLen at hpos
    omega
  have hcast : ((gridLen s - 1 : ℕ) : ℤ) =
      Int.ceil ((s * 1.25 + 0.01) - s * 0.75) - 1 := by
    unfold gridLen
    omega
  have hcastQ : ((gridLen s - 1 : ℕ) : ℚ) =
      ((Int.ceil ((s * 1.25 + 0.01) - s * 0.75) : ℤ) : ℚ) - 1 := by
    exact_mod_cast congrArg (fun z : ℤ => (z : ℚ)) hcast
  have hle : ((s * 1.25 + 0.01) - s * 0.75) ≤
      ((Int.ceil ((s * 1.25 + 0.01) - s * 0.75) : ℤ) : ℚ) := Int.le_ceil _
  have hlt : ((Int.ceil ((s * 1.25 + 0.01) - s * 0.75) : ℤ) : ℚ) <
      ((s * 1.25 + 0.01) - s * 0.75) + 1 := Int.ceil_lt_add_one _
  constructor
  · rw [hcastQ]
    linarith
  · rw [hcastQ]
    linarith

/-! ### Payoff bound lemmas -/

theorem shortCallPayoff_le (s pm p : ℚ) : shortCallPayoff s pm p ≤ pm := by
  unfold shortCallPayoff
  split
  · exact le_refl pm
  · rename_i h
    push_neg at h
    linarith

theorem shortCallPayoff_eq_iff (s pm p : ℚ) :
    shortCallPayoff s pm p = pm ↔ p ≤ s := by
  unfold shortCallPayoff
  split
  · rename_i h
    simp [h]
  · rename_i h
    push_neg at h
    constructor
    · intro he
      exfalso
      linarith
    · intro hle
      exfalso
      linarith

theorem shortPutPayoff_le (s pm p : ℚ) : shortPutPayoff s pm p ≤ pm := by
  unfold shortPutPayoff
  split
  · exact le_refl pm
  · rename_i h
    push_neg at h
    linarith

theorem shortPutPayoff_eq_iff (s pm p : ℚ) :
    shortPutPayoff s pm p = pm ↔ p ≥ s := by
  unfold shortPutPayoff
  split
  · rename_i h
    simp [h]
  · rename_i h
    push_neg at h
    constructor
    · intro he
      exfalso
      linarith
    · intro hge
      exfalso
      linarith

theorem scaleOf_nonneg (P : Params) (hc : 0 ≤ P.contract_size) : 0 ≤ scaleOf P := by
  unfold scaleOf
  split
  · norm_num
  · exact hc

/-- The parameter values of the spec's worked scenario (strike 420,
premium 10, basis 420, contract size 100, per-share, profit mode). -/
def sampleParams : Params :=
  { strike_price := 420, premium := 10, basis := 420, contract_size := 100,
    per_share := true, show_profit := true }

/-! ### Claims -/

/-- C1: whenever the Covered Call series is present (it is present exactly
when requested), its series in the `strategies` dict — i.e. before the
profit and scale transforms — is the element-wise sum of the Long Stock
value series (the grid itself) and the Naked Short Call series computed with
the same parameters. -/
theorem covered_call_decomposition (g : List ℚ) (P : Params) (req : List String)
    (hcc : dictMem (strategies g P req) "Covered Call" = true) :
    dictGet (strategies g P req) "Covered Call" =
      List.zipWith (fun a b => a + b) g
        (shortCallSeries P.strike_price P.premium g) := by
  rw [strategies_mem_CC] at hcc
  exact strategies_get_CC g P req hcc

/-- C1 witness: the decomposition at the spec's scenario parameters on the
grid [400, 420, 450]. -/
theorem covered_call_decomposition_witness :
    dictMem (strategies [400, 420, 450] sampleParams ["Long Stock", "Covered Call"])
      "Covered Call" = true ∧
    dictGet (strategies [400, 420, 450] sampleParams ["Long Stock", "Covered Call"])
      "Covered Call" =
      List.zipWith (fun a b => a + b) [400, 420, 450]
        (shortCallSeries sampleParams.strike_price sampleParams.premium
          [400, 420, 450]) :=
  ⟨by decide,
    covered_call_decomposition [400, 420, 450] sampleParams
      ["Long Stock", "Covered Call"] (by decide)⟩

/-- C2: with `show_profit` set, the profit transform subtracts `basis`
exactly once from the Long Stock series and once from the Covered Call
series when they are present, and leaves the Naked Short Call, Naked Short
Put, and Cash Secured Put series unchanged. -/
theorem profit_offset (g : List ℚ) (P : Params) (req : List String)
    (hp : P.show_profit = true) :
    (dictMem (strategies g P req) "Long Stock" = true →
      dictGet (applyProfit P (strategies g P req)) "Long Stock" =
        (dictGet (strategies g P req) "Long Stock").map (fun x => x - P.basis)) ∧
    (dictMem (strategies g P req) "Covered Call" = true →
      dictGet (applyProfit P (strategies g P req)) "Covered Call" =
        (dictGet (strategies g P req) "Covered Call").map (fun x => x - P.basis)) ∧
    dictGet (applyProfit P (strategies g P req)) "Naked Short Call" =
      dictGet (strategies g P req) "Naked Short Call" ∧
    dictGet (applyProfit P (strategies g P req)) "Naked Short Put" =
      dictGet (strategies g P req) "Naked Short Put" ∧
    dictGet (applyProfit P (strategies g P req)) "Cash Secured Put" =
      dictGet (strategies g P req) "Cash Secured Put" := by
  refine ⟨fun hm => applyProfit_get_LS P _ hp hm,
    fun hm => applyProfit_get_CC P _ hp hm,
    applyProfit_get_other P _ _ (by decide) (by decide),
    applyProfit_get_other P _ _ (by decide) (by decide),
    applyProfit_get_other P _ _ (by decide) (by decide)⟩

/-- C2 witness: the profit transform at the spec's scenario parameters on
the grid [400, 420, 450]. -/
theorem profit_offset_witness :
    sampleParams.show_profit = true ∧
    ((dictMem (strategies [400, 420, 450] sampleParams ["Long Stock", "Covered Call"])
        "Long Stock" = true →
      dictGet (applyProfit sampleParams
          (strategies [400, 420, 450] sampleParams ["Long Stock", "Covered Call"]))
        "Long Stock" =
        (dictGet (strategies [400, 420, 450] sampleParams ["Long Stock", "Covered Call"])
          "Long Stock").map (fun x => x - sampleParams.basis)) ∧
    (dictMem (strategies [400, 420, 450] sampleParams ["Long Stock", "Covered Call"])
        "Covered Call" = true →
      dictGet (applyProfit sampleParams
          (strategies [400, 420, 450] sampleParams ["Long Stock", "Covered Call"]))
        "Covered Call" =
        (dictGet (strategies [400, 420, 450] sampleParams ["Long Stock", "Covered Call"])
          "Covered Call").map (fun x => x - sampleParams.basis)) ∧
    dictGet (applyProfit sampleParams
        (strategies [400, 420, 450] sampleParams ["Long Stock", "Covered Call"]))
      "Naked Short Call" =
      dictGet (strategies [400, 420, 450] sampleParams ["Long Stock", "Covered Call"])
        "Naked Short Call" ∧
    dictGet (applyProfit sampleParams
        (strategies [400, 420, 450] sampleParams ["Long Stock", "Covered Call"]))
      "Naked Short Put" =
      dictGet (strategies [400, 420, 450] sampleParams ["Long Stock", "Covered Call"])
        "Naked Short Put" ∧
    dictGet (applyProfit sampleParams
        (strategies [400, 420, 450] sampleParams ["Long Stock", "Covered Call"]))
      "Cash Secured Put" =
      dictGet (strategies [400, 420, 450] sampleParams ["Long Stock", "Covered Call"])
        "Cash Secured Put") :=
  ⟨rfl, profit_offset [400, 420, 450] sampleParams ["Long Stock", "Covered Call"] rfl⟩

/-- C3 counterexample: at strike 421 (> 0) the grid's last element is
525.75, strictly below 1.25 × 421 = 526.25, so the claim that the last
element is always ≥ 1.25 × strike is false. -/
theorem grid_endpoint_not_reached :
    (0:ℚ) < 421 ∧ (stock_prices 421).getLast? = some (525.75 : ℚ) ∧
    (525.75 : ℚ) < 421 * 1.25 := by
  refine ⟨by norm_num, ?_, by norm_num⟩
  have h : Int.ceil (((421:ℚ) * 1.25 + 0.01) - 421 * 0.75) = 211 := by
    rw [Int.ceil_eq_iff]
    constructor <;> norm_num
  have hlen : gridLen 421 = 211 := by
    unfold gridLen
    rw [h]
    rfl
  rw [List.getLast?_eq_getElem?, stock_prices_length, hlen,
    stock_prices_getElemQ 421 210 (by rw [hlen]; norm_num)]
  norm_num

/-- C3 amended: for strike s > 0 the grid is nonempty, starts exactly at
0.75 × s, element i is 0.75 × s + i (so the sequence ascends with uniform
step 1.0), and its last element lies in [1.25 s + 0.01 − 1, 1.25 s + 0.01):
the nominal endpoint 1.25 s itself is reached only when 0.5 s + 0.01 has
integer ceiling gap, not in general. -/
theorem grid_bounds_amended (s : ℚ) (hs : 0 < s) :
    0 < (stock_prices s).length ∧
    (stock_prices s)[0]? = some (s * 0.75) ∧
    (∀ (i : ℕ) (hi : i < (stock_prices s).length),
      (stock_prices s)[i] = s * 0.75 + (i : ℚ)) ∧
    (∀ x : ℚ, (stock_prices s).getLast? = some x →
      s * 1.25 + 0.01 - 1 ≤ x ∧ x < s * 1.25 + 0.01) := by
  refine ⟨?_, ?_, fun i hi => stock_prices_getElem s i hi,
    fun x hx => stock_prices_getLast_bounds s hs x hx⟩
  · rw [stock_prices_length]
    exact gridLen_pos s hs
  · rw [stock_prices_getElemQ s 0 (gridLen_pos s hs)]
    norm_num

/-- C3 amended witness: the grid bounds at strike 2. -/
theorem grid_bounds_amended_witness :
    (0:ℚ) < 2 ∧
    (0 < (stock_prices 2).length ∧
      (stock_prices 2)[0]? = some ((2:ℚ) * 0.75) ∧
      (∀ (i : ℕ) (hi : i < (stock_prices 2).length),
        (stock_prices 2)[i] = (2:ℚ) * 0.75 + (i : ℚ)) ∧
      (∀ x : ℚ, (stock_prices 2).getLast? = some x →
        (2:ℚ) * 1.25 + 0.01 - 1 ≤ x ∧ x < (2:ℚ) * 1.25 + 0.01)) :=
  ⟨by norm_num, grid_bounds_amended 2 (by norm_num)⟩

/-- C4 counterexample: with only Covered Call requested, the internally
computed Long Stock and Naked Short Call intermediates ARE present as keys
of the output mapping, contradicting the claim that they are excluded. -/
theorem intermediates_excluded_counterexample :
    (["Covered Call"] : List String).contains "Long Stock" = false ∧
    (["Covered Call"] : List String).contains "Naked Short Call" = false ∧
    dictMem (compute_payoffs [400, 420, 450] sampleParams ["Covered Call"])
      "Long Stock" = true ∧
    dictMem (compute_payoffs [400, 420, 450] sampleParams ["Covered Call"])
      "Naked Short Call" = true := by
  refine ⟨by decide, by decide, by decide, by decide⟩

/-- C4 amended: whenever Covered Call is requested, the Long Stock and Naked
Short Call series are present as keys of the output mapping, whether or not
they were explicitly requested — the intermediates are exposed, not hidden. -/
theorem intermediates_exposed (g : List ℚ) (P : Params) (req : List String)
    (hcc : req.contains "Covered Call" = true) :
    dictMem (compute_payoffs g P req) "Long Stock" = true ∧
    dictMem (compute_payoffs g P req) "Naked Short Call" = true := by
  constructor
  · rw [cp_mem, strategies_mem_LS, hcc, Bool.or_true]
  · rw [cp_mem, strategies_mem_NSC, hcc, Bool.or_true]

/-- C4 amended witness: the exposure at a concrete input. -/
theorem intermediates_exposed_witness :
    (["Covered Call"] : List String).contains "Covered Call" = true ∧
    (dictMem (compute_payoffs [1] sampleParams ["Covered Call"]) "Long Stock" = true ∧
      dictMem (compute_payoffs [1] sampleParams ["Covered Call"]) "Naked Short Call" = true) :=
  ⟨by decide, intermediates_exposed [1] sampleParams ["Covered Call"] (by decide)⟩

/-- C5 counterexample: requesting ["Covered Call", "Long Stock"] (Covered
Call first) yields the output key order [Long Stock, Naked Short Call,
Covered Call]: Long Stock precedes Covered Call even though the caller
requested the opposite order, so the output does not preserve the caller's
requested order. -/
theorem output_order_counterexample :
    dictKeys (compute_payoffs [400] sampleParams ["Covered Call", "Long Stock"]) =
      ["Long Stock", "Naked Short Call", "Covered Call"] ∧
    (["Covered Call", "Long Stock"] : List String).indexOf "Covered Call" <
      (["Covered Call", "Long Stock"] : List String).indexOf "Long Stock" ∧
    (dictKeys (compute_payoffs [400] sampleParams
        ["Covered Call", "Long Stock"])).indexOf "Long Stock" <
      (dictKeys (compute_payoffs [400] sampleParams
        ["Covered Call", "Long Stock"])).indexOf "Covered Call" := by
  refine ⟨by decide, by decide, by decide⟩

/-- C5 amended: the output key order is the source's fixed testing order
(Long Stock, Naked Short Call, Covered Call — with the two intermediates
inserted just before Covered Call when missing — then Naked Short Put, then
Cash Secured Put), independent of the caller's requested order. -/
theorem output_order_amended (g : List ℚ) (P : Params) (req : List String) :
    dictKeys (compute_payoffs g P req) =
      ((if req.contains "Long Stock" then ["Long Stock"] else []) ++
        (if req.contains "Naked Short Call" then ["Naked Short Call"] else [])) ++
      (if req.contains "Covered Call" then
        (if req.contains "Long Stock" then [] else ["Long Stock"]) ++
        (if req.contains "Naked Short Call" then [] else ["Naked Short Call"]) ++
        ["Covered Call"]
      else []) ++
      (if req.contains "Naked Short Put" then ["Naked Short Put"] else []) ++
      (if req.contains "Cash Secured Put" then ["Cash Secured Put"] else []) := by
  rw [cp_keys, strategies_keys]

/-- C6: for every key, the series computed with per_share = False equals
the series computed with per_share = True (all other parameters identical)
multiplied element-wise by contract_size. -/
theorem scale_linearity (g : List ℚ) (P : Params) (req : List String)
    (k : String) :
    dictGet (compute_payoffs g { P with per_share := false } req) k =
      (dictGet (compute_payoffs g { P with per_share := true } req) k).map
        (fun x => P.contract_size * x) := by
  have e1 : compute_payoffs g { P with per_share := false } req =
      applyScale { P with per_share := false } (applyProfit P (strategies g P req)) := rfl
  have e2 : compute_payoffs g { P with per_share := true } req =
      applyScale { P with per_share := true } (applyProfit P (strategies g P req)) := rfl
  rw [e1, e2, dictGet_applyScale, dictGet_applyScale, List.map_map]
  have hfun : ((fun x => P.contract_size * x) ∘
      (fun x => x * scaleOf { P with per_share := true }) : ℚ → ℚ) =
      fun x => x * scaleOf { P with per_share := false } := by
    funext x
    have h1 : scaleOf { P with per_share := true } = 1 := rfl
    have h2 : scaleOf { P with per_share := false } = P.contract_size := rfl
    rw [Function.comp_apply, h1, h2]
    ring
  rw [hfun]

/-- C7: when both are requested, the Cash Secured Put series of the final
output equals the Naked Short Put series element for element — the two
identifiers denote the same payoff computation through every transform. -/
theorem cash_secured_put_equals_naked_short_put (g : List ℚ) (P : Params)
    (req : List String) (h1 : req.contains "Naked Short Put" = true)
    (h2 : req.contains "Cash Secured Put" = true) :
    dictGet (compute_payoffs g P req) "Cash Secured Put" =
      dictGet (compute_payoffs g P req) "Naked Short Put" := by
  rw [cp_get_CSP g P req h2, cp_get_NSP g P req h1]

/-- C7 witness: the equality at a concrete input requesting both puts. -/
theorem cash_secured_put_equals_naked_short_put_witness :
    (["Naked Short Put", "Cash Secured Put"] : List String).contains
      "Naked Short Put" = true ∧
    (["Naked Short Put", "Cash Secured Put"] : List String).contains
      "Cash Secured Put" = true ∧
    dictGet (compute_payoffs [400, 420, 450] sampleParams
        ["Naked Short Put", "Cash Secured Put"]) "Cash Secured Put" =
      dictGet (compute_payoffs [400, 420, 450] sampleParams
        ["Naked Short Put", "Cash Secured Put"]) "Naked Short Put" :=
  ⟨by decide, by decide,
    cash_secured_put_equals_naked_short_put [400, 420, 450] sampleParams
      ["Naked Short Put", "Cash Secured Put"] (by decide) (by decide)⟩

/-- C8: every series present in the output mapping has exactly the length
of the input price grid. -/
theorem series_length_invariant (g : List ℚ) (P : Params) (req : List String)
    (k : String) (h : dictMem (compute_payoffs g P req) k = true) :
    (dictGet (compute_payoffs g P req) k).length = g.length := by
  by_cases h1 : k = "Long Stock"
  · subst h1
    rw [cp_mem, strategies_mem_LS] at h
    rw [cp_get_LS g P req h, List.length_map]
  by_cases h2 : k = "Naked Short Call"
  · subst h2
    rw [cp_mem, strategies_mem_NSC] at h
    rw [cp_get_NSC g P req h]
    simp [shortCallSeries]
  by_cases h3 : k = "Covered Call"
  · subst h3
    rw [cp_mem, strategies_mem_CC] at h
    rw [cp_get_CC g P req h]
    simp [shortCallSeries]
  by_cases h4 : k = "Naked Short Put"
  · subst h4
    rw [cp_mem, strategies_mem_NSP] at h
    rw [cp_get_NSP g P req h]
    simp [shortPutSeries]
  by_cases h5 : k = "Cash Secured Put"
  · subst h5
    rw [cp_mem, strategies_mem_CSP] at h
    rw [cp_get_CSP g P req h]
    simp [shortPutSeries]
  exfalso
  rw [cp_mem, strategies_mem_other g P req k h1 h2 h3 h4 h5] at h
  exact Bool.false_ne_true h

/-- C8 witness: the length invariant at a concrete input. -/
theorem series_length_invariant_witness :
    dictMem (compute_payoffs [400, 420] sampleParams ["Long Stock", "Covered Call"])
      "Covered Call" = true ∧
    (dictGet (compute_payoffs [400, 420] sampleParams ["Long Stock", "Covered Call"])
      "Covered Call").length = ([400, 420] : List ℚ).length :=
  ⟨by decide,
    series_length_invariant [400, 420] sampleParams ["Long Stock", "Covered Call"]
      "Covered Call" (by decide)⟩

/-- C9: for every grid, every parameter set (validated or not — no
positivity is checked anywhere in the engine) and every requested list, the
payoff computation is a total function whose output keys all belong to the
fixed closed identifier set; the embedding is division-free and defined on
all of ℚ, so no division-by-zero or other failure branch exists. -/
theorem engine_total_keys (g : List ℚ) (P : Params) (req : List String) :
    dictKeys (compute_payoffs g P req) ⊆ allStrategyNames := by
  rw [cp_keys, strategies_keys]
  intro x hx
  simp only [List.mem_append] at hx
  rcases hx with ((((h | h) | h) | h) | h) <;> split_ifs at h <;>
    simp_all [allStrategyNames] <;> tauto

/-- C9 witness: totality at a parameter set violating every positivity
constraint and a request containing an unrecognized identifier. -/
theorem engine_total_keys_witness :
    dictKeys (compute_payoffs [1]
      { strike_price := -5, premium := -1, basis := -2, contract_size := 0,
        per_share := false, show_profit := true }
      ["Long Stock", "Bogus Strategy"]) ⊆ allStrategyNames :=
  engine_total_keys [1]
    { strike_price := -5, premium := -1, basis := -2, contract_size := 0,
      per_share := false, show_profit := true }
    ["Long Stock", "Bogus Strategy"]

/-- C10: each per-share short-option payoff is at most the premium, with
equality exactly when the option expires at or out of the money, and —
for a non-negative contract size — every element of the Naked Short Call,
Naked Short Put, and Cash Secured Put series in the final output is at most
premium × scale. -/
theorem short_option_premium_cap (g : List ℚ) (P : Params) (req : List String)
    (hc : 0 ≤ P.contract_size) :
    (∀ p : ℚ, shortCallPayoff P.strike_price P.premium p ≤ P.premium ∧
      (shortCallPayoff P.strike_price P.premium p = P.premium ↔
        p ≤ P.strike_price)) ∧
    (∀ p : ℚ, shortPutPayoff P.strike_price P.premium p ≤ P.premium ∧
      (shortPutPayoff P.strike_price P.premium p = P.premium ↔
        p ≥ P.strike_price)) ∧
    (∀ k : String,
      (k = "Naked Short Call" ∨ k = "Naked Short Put" ∨ k = "Cash Secured Put") →
      ∀ x ∈ dictGet (compute_payoffs g P req) k,
        x ≤ P.premium * scaleOf P) := by
  refine ⟨fun p => ⟨shortCallPayoff_le _ _ _, shortCallPayoff_eq_iff _ _ _⟩,
    fun p => ⟨shortPutPayoff_le _ _ _, shortPutPayoff_eq_iff _ _ _⟩, ?_⟩
  have hs : 0 ≤ scaleOf P := scaleOf_nonneg P hc
  intro k hk x hx
  rcases hk with hk | hk | hk
  · subst hk
    cases hcond : (req.contains "Naked Short Call" || req.contains "Covered Call") with
    | false =>
        rw [dictGet_of_not_mem _ _ (by rw [cp_mem, strategies_mem_NSC]; exact hcond)] at hx
        exact absurd hx (List.not_mem_nil x)
    | true =>
        rw [cp_get_NSC g P req hcond] at hx
        simp only [shortCallSeries, List.map_map, List.mem_map,
          Function.comp_apply] at hx
        obtain ⟨p, hp, he⟩ := hx
        rw [← he]
        exact mul_le_mul_of_nonneg_right (shortCallPayoff_le _ _ _) hs
  · subst hk
    cases hcond : req.contains "Naked Short Put" with
    | false =>
        rw [dictGet_of_not_mem _ _ (by rw [cp_mem, strategies_mem_NSP]; exact hcond)] at hx
        exact absurd hx (List.not_mem_nil x)
    | true =>
        rw [cp_get_NSP g P req hcond] at hx
        simp only [shortPutSeries, List.map_map, List.mem_map,
          Function.comp_apply] at hx
        obtain ⟨p, hp, he⟩ := hx
        rw [← he]
        exact mul_le_mul_of_nonneg_right (shortPutPayoff_le _ _ _) hs
  · subst hk
    cases hcond : req.contains "Cash Secured Put" with
    | false =>
        rw [dictGet_of_not_mem _ _ (by rw [cp_mem, strategies_mem_CSP]; exact hcond)] at hx
        exact absurd hx (List.not_mem_nil x)
    | true =>
        rw [cp_get_CSP g P req hcond] at hx
        simp only [shortPutSeries, List.map_map, List.mem_map,
          Function.comp_apply] at hx
        obtain ⟨p, hp, he⟩ := hx
        rw [← he]
        exact mul_le_mul_of_nonneg_right (shortPutPayoff_le _ _ _) hs

/-- C10 witness: the premium cap at the spec's scenario parameters. -/
theorem short_option_premium_cap_witness :
    (0:ℚ) ≤ sampleParams.contract_size ∧
    ((∀ p : ℚ, shortCallPayoff sampleParams.strike_price sampleParams.premium p ≤
        sampleParams.premium ∧
      (shortCallPayoff sampleParams.strike_price sampleParams.premium p =
          sampleParams.premium ↔ p ≤ sampleParams.strike_price)) ∧
    (∀ p : ℚ, shortPutPayoff sampleParams.strike_price sampleParams.premium p ≤
        sampleParams.premium ∧
      (shortPutPayoff sampleParams.strike_price sampleParams.premium p =
          sampleParams.premium ↔ p ≥ sampleParams.strike_price)) ∧
    (∀ k : String,
      (k = "Naked Short Call" ∨ k = "Naked Short Put" ∨ k = "Cash Secured Put") →
      ∀ x ∈ dictGet (compute_payoffs [400, 420, 450] sampleParams
        ["Naked Short Call", "Naked Short Put", "Cash Secured Put"]) k,
        x ≤ sampleParams.premium * scaleOf sampleParams)) :=
  ⟨by norm_num [sampleParams],
    short_option_premium_cap [400, 420, 450] sampleParams
      ["Naked Short Call", "Naked Short Put", "Cash Secured Put"]
      (by norm_num [sampleParams])⟩
